import Mathlib

/-!
Verification of the WebDeck action registry and request dispatcher
(`webDeck.py`): the name normalizer `_camel_to_snake`, the plugin loader
`load_plugins`, and the HTTP POST action dispatcher `WebDeckHandler.do_POST`,
shallowly embedded as executable Lean definitions.
-/

/-! ## Name normalizer (`_camel_to_snake`, webDeck.py lines 53-57)

The Python source:

  s1 = re.sub of the pattern "(.)([A-Z][a-z]+)" with "\1_\2" over name
  s2 = re.sub of the pattern "([a-z0-9])([A-Z])" with "\1_\2" over s1
  return s2.replace of hyphen by underscore, then .lower()

Strings are modelled as lists of characters; the two substitutions are
modelled by left-to-right non-overlapping scans with greedy matching,
mirroring the semantics of Python re.sub for these patterns.  The dot in the
first pattern matches any character except a newline.  `.lower()` is modelled
on the ASCII range, which is the range the patterns act on.
-/

def isUpperAZ (c : Char) : Bool := 65 ≤ c.toNat && c.toNat ≤ 90

def isLowerAZ (c : Char) : Bool := 97 ≤ c.toNat && c.toNat ≤ 122

def isDigit09 (c : Char) : Bool := 48 ≤ c.toNat && c.toNat ≤ 57

def lowdig (c : Char) : Bool := isLowerAZ c || isDigit09 c

def toLowerPy (c : Char) : Char :=
  if isUpperAZ c then Char.ofNat (c.toNat + 32) else c

def replDash (c : Char) : Char := if c = '-' then '_' else c

def headLower : List Char → Bool
  | [] => false
  | c :: _ => isLowerAZ c

/-- First substitution, with explicit structural fuel: pattern
"(.)([A-Z][a-z]+)" replaced by "\1_\2".  A match consumes one arbitrary
non-newline character, one ASCII uppercase letter and a maximal nonempty run
of ASCII lowercase letters; scanning resumes after the consumed text.  The
fuel only makes the recursion structural; any fuel at least the length of
the list yields the scan's result (proved below). -/
def sub1F : Nat → List Char → List Char
  | 0, xs => xs
  | _ + 1, [] => []
  | _ + 1, [c] => [c]
  | fuel + 1, c :: d :: rest =>
    if (c != '\n') && isUpperAZ d && headLower rest then
      c :: '_' :: d ::
        (rest.takeWhile isLowerAZ ++ sub1F fuel (rest.dropWhile isLowerAZ))
    else
      c :: sub1F fuel (d :: rest)

def sub1 (xs : List Char) : List Char := sub1F xs.length xs

/-- Second substitution: pattern "([a-z0-9])([A-Z])" replaced by "\1_\2".
A match consumes an ASCII lowercase letter or digit followed by an ASCII
uppercase letter; scanning resumes after the consumed pair. -/
def sub2 : List Char → List Char
  | [] => []
  | [c] => [c]
  | c :: d :: rest =>
    if lowdig c && isUpperAZ d then
      c :: '_' :: d :: sub2 rest
    else
      c :: sub2 (d :: rest)

/-- The name normalizer `_camel_to_snake` from webDeck.py: both regex
substitutions, then hyphens replaced by underscores, then lowercasing. -/
def camel_to_snake (name : String) : String :=
  String.mk (((sub2 (sub1 name.data)).map replDash).map toLowerPy)

/-! ### Single-pass reformulations of the two scans

Used to relate the scans to the specification's description of separator
placement.  `sub1Go prev inMatch xs` processes `xs` one character at a time;
`prev` is the character immediately preceding `xs`, and `inMatch` records
whether `prev` was consumed by a match of the first pattern (in which case
it cannot serve as the "(.)" character of a new match). -/

def sub1Go (prev : Char) (inMatch : Bool) : List Char → List Char
  | [] => []
  | c :: rest =>
    if !inMatch && (prev != '\n') && isUpperAZ c && headLower rest then
      '_' :: c :: sub1Go c true rest
    else
      c :: sub1Go c (inMatch && isLowerAZ c) rest

def sub1Ctx : List Char → List Char
  | [] => []
  | c :: rest => c :: sub1Go c false rest

def sub2Go (prev : Char) : List Char → List Char
  | [] => []
  | c :: rest =>
    if lowdig prev && isUpperAZ c then
      '_' :: c :: sub2Go c rest
    else
      c :: sub2Go c rest

def sub2Ctx : List Char → List Char
  | [] => []
  | c :: rest => c :: sub2Go c rest

/-- Separator placement exactly as §4.1 of the specification words it: a
separator goes before an uppercase letter that follows a lowercase letter or
digit (rule a), and before a capitalized run (an uppercase letter followed
by a lowercase letter) whose preceding character is the tail of another
capitalized run, hence an uppercase letter (rule b). -/
def specGo (prev : Char) : List Char → List Char
  | [] => []
  | c :: rest =>
    if isUpperAZ c && (lowdig prev || (isUpperAZ prev && headLower rest)) then
      '_' :: c :: specGo c rest
    else
      c :: specGo c rest

/-- Amended separator placement: rule (b) fires before a capitalized run
preceded by any character other than a newline, not only by the tail of
another capitalized run. -/
def amendGo (prev : Char) : List Char → List Char
  | [] => []
  | c :: rest =>
    if isUpperAZ c && (lowdig prev || ((prev != '\n') && headLower rest)) then
      '_' :: c :: amendGo c rest
    else
      c :: amendGo c rest

def specSep : List Char → List Char
  | [] => []
  | c :: rest => c :: specGo c rest

def amendSep : List Char → List Char
  | [] => []
  | c :: rest => c :: amendGo c rest

/-- §4.1 of the specification as a function: separators per rules (a) and
(b), hyphens mapped to the separator, everything lowercased. -/
def spec_normalizer (name : String) : String :=
  String.mk (((specSep name.data).map replDash).map toLowerPy)

/-- The specification's §4.1 with rule (b) amended as `amendGo` states. -/
def spec_normalizer_amended (name : String) : String :=
  String.mk (((amendSep name.data).map replDash).map toLowerPy)

/-! ## Python values and exceptions

JSON-decoded Python values as seen by the dispatcher, and the exceptions
that the modelled code can raise.  An `Except.error` escaping `do_POST`
models an exception propagating out of the handler method uncaught. -/

inductive PyErr where
  | typeError (m : String)
  | attrError (m : String)
  | exc (m : String)

def PyErr.msg : PyErr → String
  | .typeError m => m
  | .attrError m => m
  | .exc m => m

inductive JValue where
  | null
  | bool (b : Bool)
  | num (n : Int)
  | str (s : String)
  | arr (elems : List JValue)
  | obj (fields : List (String × JValue))

mutual

/-- Python str()/repr() of a decoded JSON value, used where the source
interpolates a value into an f-string message. -/
def pyRepr : JValue → String
  | .null => "None"
  | .bool true => "True"
  | .bool false => "False"
  | .num n => toString n
  | .str s => "'" ++ s ++ "'"
  | .arr es => "[" ++ String.intercalate ", " (pyReprList es) ++ "]"
  | .obj fs => "\x7b" ++ String.intercalate ", " (pyReprFields fs) ++ "\x7d"

def pyReprList : List JValue → List String
  | [] => []
  | v :: vs => pyRepr v :: pyReprList vs

def pyReprFields : List (String × JValue) → List String
  | [] => []
  | kv :: fs => ("'" ++ kv.1 ++ "': " ++ pyRepr kv.2) :: pyReprFields fs

end

/-- Python str() of a value: like repr, except a string yields itself. -/
def pyStr : JValue → String
  | .str s => s
  | v => pyRepr v

/-- str() of `data.get(...)`'s result: Python's None prints as "None". -/
def pyStrOpt : Option JValue → String
  | none => "None"
  | some v => pyStr v

/-- Lookup of a key in a decoded JSON object's fields (a Python dict). -/
def lookupField (fs : List (String × JValue)) (k : String) : Option JValue :=
  (fs.find? (fun p => p.1 == k)).map (fun p => p.2)

def errObj (m : String) : JValue :=
  .obj [("status", .str "error"), ("message", .str m)]

def okObj (m : String) : JValue :=
  .obj [("status", .str "success"), ("message", .str m)]

/-! ## Handlers, the plugin registry and `load_plugins` (webDeck.py 60-116)

A plugin handler models a bound method of a `WebDeckPlugin` instance:
`nparams` is the number of parameters reported by `inspect.signature`, and
`run` is the call itself, which either returns a Python value or raises.
The dispatcher calls it with the decoded request dict when `nparams` is
nonzero and with no argument otherwise, so `run` receives `some data` or
`none` accordingly. -/

structure Handler where
  nparams : Nat
  run : Option JValue → Except PyErr JValue

/-- `PLUGIN_ACTIONS`: a Python dict in insertion order, keys are normalized
action names. -/
abbrev Registry := List (String × Handler)

def lookupReg (reg : Registry) (k : String) : Option Handler :=
  (reg.find? (fun p => p.1 == k)).map (fun p => p.2)

/-- `dict.setdefault(key, value)`: insert only if the key is absent; an
occupied key keeps its existing handler. -/
def setdefault (reg : Registry) (k : String) (h : Handler) : Registry :=
  if (lookupReg reg k).isSome then reg else reg ++ [(k, h)]

/-- Outcome of attempting to load one candidate plugin file:
`loadFail` models an exception from `spec.loader.exec_module`;
`noPluginClass` models a module without a `WebDeckPlugin` class;
`instFail` models an exception from instantiating `WebDeckPlugin()`;
`methods ms` models a successful instantiation whose public bound methods,
in `inspect.getmembers` enumeration order, are `ms` (method name paired
with the bound method). -/
inductive UnitOutcome where
  | loadFail
  | noPluginClass
  | instFail
  | methods (ms : List (String × Handler))

/-- One directory entry seen by `load_plugins`: its file name, whether its
pathlib suffix is ".py", and what loading it does. -/
structure PluginUnit where
  fname : String
  isPy : Bool
  outcome : UnitOutcome

/-- Processing of a single directory entry by `load_plugins`: non-`.py`
files and files whose name starts with an underscore are skipped; a load or
instantiation failure is logged and contributes nothing; otherwise each
method not starting with an underscore and not named "metadata" is
registered under its normalized name via `setdefault`. -/
def registerUnit (reg : Registry) (u : PluginUnit) : Registry :=
  if !u.isPy || u.fname.startsWith "_" then reg
  else
    match u.outcome with
    | .loadFail => reg
    | .noPluginClass => reg
    | .instFail => reg
    | .methods ms =>
      ms.foldl
        (fun r m =>
          if m.1.startsWith "_" || m.1 == "metadata" then r
          else setdefault r (camel_to_snake m.1) m.2)
        reg

/-- `load_plugins`: fold the per-unit registration over the directory
entries in enumeration order, starting from the empty registry. -/
def load_plugins (units : List PluginUnit) : Registry :=
  units.foldl registerUnit []

/-- The registration attempts a unit submits to the registry, in enumeration
order: its eligible methods under their normalized names. -/
def unitSubmissions (u : PluginUnit) : List (String × Handler) :=
  if !u.isPy || u.fname.startsWith "_" then []
  else
    match u.outcome with
    | .loadFail => []
    | .noPluginClass => []
    | .instFail => []
    | .methods ms =>
      (ms.filter (fun m => !(m.1.startsWith "_" || m.1 == "metadata"))).map
        (fun m => (camel_to_snake m.1, m.2))

/-- All registration attempts of a run of `load_plugins`, in order. -/
def submissions (units : List PluginUnit) : List (String × Handler) :=
  (units.map unitSubmissions).flatten

/-! ## The dispatcher (`WebDeckHandler.do_POST`, webDeck.py 268-376)

The environment carries the outcomes of the external effects the handler
code calls into; each `Option PyErr` field is `some e` when that call
raises `e` and `none` when it returns normally. -/

structure Env where
  mediaAvailable : Bool
  pressKey : String → Option PyErr
  showinfo : Option PyErr
  startfile : String → Option PyErr
  lockScreen : Option PyErr

/-- `handle_media_control` (webDeck.py 185-212): total — every exception
from the key press is caught inside it and converted to an error dict. -/
def handle_media_control (env : Env) (action : String) : JValue :=
  if !env.mediaAvailable then errObj "Media control not available."
  else
    match action with
    | "pause_media" =>
      match env.pressKey "media_play_pause" with
      | none => okObj "Toggled play/pause."
      | some (.attrError m) =>
        errObj ("Media key not supported on this system: " ++ m)
      | some e => errObj ("Failed to execute media control: " ++ e.msg)
    | "toggle_mute" =>
      match env.pressKey "media_volume_mute" with
      | none => okObj "Toggled mute."
      | some (.attrError m) =>
        errObj ("Media key not supported on this system: " ++ m)
      | some e => errObj ("Failed to execute media control: " ++ e.msg)
    | "skip_track" =>
      match env.pressKey "media_next" with
      | none => okObj "Skipped to next track."
      | some (.attrError m) =>
        errObj ("Media key not supported on this system: " ++ m)
      | some e => errObj ("Failed to execute media control: " ++ e.msg)
    | "previous_track" =>
      match env.pressKey "media_previous" with
      | none => okObj "Skipped to previous track."
      | some (.attrError m) =>
        errObj ("Media key not supported on this system: " ++ m)
      | some e => errObj ("Failed to execute media control: " ++ e.msg)
    | _ => errObj "Unknown media action."

/-- The eight action identifiers handled by the built-in if/elif chain of
`do_POST`, in source order. -/
def builtinNames : List String :=
  ["example", "open_app", "toggle_mute", "pause_media", "skip_track",
   "previous_track", "open_url", "lock_screen"]

def mediaNames : List String :=
  ["toggle_mute", "pause_media", "skip_track", "previous_track"]

/-- `os.startfile(path)`: raises TypeError unless the argument is a string;
on a string the outcome is the environment's. -/
def startfileCall (env : Env) (path : Option JValue) : Option PyErr :=
  match path with
  | some (.str s) => env.startfile s
  | _ => some (.typeError "startfile: path should be string, bytes or os.PathLike, not NoneType")

/-- `os.path.basename(path)`: raises TypeError unless the argument is a
string.  Evaluated inside the failure-notification argument of the open_app
branch. -/
def basenameRaises (path : Option JValue) : Option PyErr :=
  match path with
  | some (.str _) => none
  | _ => some (.typeError "expected str, bytes or os.PathLike object")

/-- How `do_POST` resolves the decoded "action" value: the built-in if/elif
chain compares it against the built-in identifier strings first; the else
branch consults `PLUGIN_ACTIONS.get(action)`, which returns nothing for a
hashable non-key (including Python None) and raises TypeError on an
unhashable value (a decoded JSON list or object). -/
inductive Resolved where
  | builtin (s : String)
  | plugin (s : String) (h : Handler)
  | unknown
  | unhashable

def resolveAction (reg : Registry) (action : Option JValue) : Resolved :=
  match action with
  | some (.str s) =>
    if s ∈ builtinNames then .builtin s
    else
      match lookupReg reg s with
      | some h => .plugin s h
      | none => .unknown
  | some (.obj _) => .unhashable
  | some (.arr _) => .unhashable
  | _ => .unknown

/-- The "example" branch: `messagebox.showinfo` is called with no enclosing
try/except, so an exception from it propagates. -/
def execExample (env : Env) : Except PyErr JValue :=
  match env.showinfo with
  | some e => .error e
  | none => .ok (okObj "Opened example message box.")

/-- The "open_app" branch: `os.startfile` failures are caught and converted
to an error dict, but the failure notification then evaluates
`os.path.basename(path_to_app)`, which itself raises (uncaught) when the
path is not a string. -/
def execOpenApp (env : Env) (fs : List (String × JValue)) : Except PyErr JValue :=
  let path := lookupField fs "path"
  match startfileCall env path with
  | none => .ok (okObj ("Opened application: " ++ pyStrOpt path))
  | some e =>
    match basenameRaises path with
    | some e2 => .error e2
    | none => .ok (errObj ("Failed to open application: " ++ e.msg))

/-- The "open_url" branch: both outcomes produce a response dict; the
notifications interpolate the url value directly, which cannot raise. -/
def execOpenUrl (env : Env) (fs : List (String × JValue)) : Except PyErr JValue :=
  let url := lookupField fs "path"
  match startfileCall env url with
  | none => .ok (okObj ("Opened URL: " ++ pyStrOpt url))
  | some e => .ok (errObj ("Failed to open URL: " ++ e.msg))

/-- The "lock_screen" branch: the `os.system` call sits in a try/except
whose handler produces an error dict. -/
def execLockScreen (env : Env) : JValue :=
  match env.lockScreen with
  | none => okObj "Screen locked."
  | some e => errObj ("Failed to lock screen: " ++ e.msg)

/-- The built-in branches of the if/elif chain, selected by the action
identifier. -/
def execBuiltin (env : Env) (fs : List (String × JValue)) (s : String) :
    Except PyErr JValue :=
  if s = "example" then execExample env
  else if s = "open_app" then execOpenApp env fs
  else if s ∈ mediaNames then .ok (handle_media_control env s)
  else if s = "open_url" then execOpenUrl env fs
  else if s = "lock_screen" then .ok (execLockScreen env)
  else .ok (errObj "Unknown action.")

/-- Calling a plugin handler the way `do_POST` does after inspecting its
signature: no argument if it takes no parameters, otherwise the decoded
request dict. -/
def callPlugin (h : Handler) (data : JValue) : Except PyErr JValue :=
  if h.nparams = 0 then h.run none else h.run (some data)

def hasStatusField (v : JValue) : Bool :=
  match v with
  | .obj fs => (lookupField fs "status").isSome
  | _ => false

/-- The plugin branch of `do_POST`: the whole invocation sits in a
try/except Exception, so it never raises; a raised exception becomes the
"Plugin error: ..." error dict, a returned dict carrying a "status" key is
used as the response as-is, and any other return value is replaced by the
synthesized success dict. -/
def execPlugin (data : JValue) (s : String) (h : Handler) : JValue :=
  match callPlugin h data with
  | .error e => errObj ("Plugin error: " ++ e.msg)
  | .ok result =>
    if hasStatusField result then result
    else okObj ("Plugin '" ++ s ++ "' executed.")

/-- `status_code = 200 if response["status"] == "success" else 400`. -/
def statusSuccess (response : JValue) : Bool :=
  match response with
  | .obj fs =>
    match lookupField fs "status" with
    | some (.str s) => s == "success"
    | _ => false
  | _ => false

/-- Serialization step of `do_POST`: the response dict with its HTTP status
code. -/
def respond (response : JValue) : JValue × Nat :=
  (response, if statusSuccess response then 200 else 400)

/-- `WebDeckHandler.do_POST` for the action endpoint (every path except
"/reload"), from reading the body to choosing the HTTP status code.
`contentLength` is the request's Content-Length header value (0 when
absent); `parsed` is the result of `json.loads` on the request body bytes,
`Except.error ()` meaning the body is not valid JSON.  When the length is
zero the code parses the literal bytes "\x7b\x7d" instead, which decode to
the empty dict.  The result is the response dict paired with the HTTP
status code, or `Except.error e` when an exception `e` escapes `do_POST`
uncaught. -/
def do_POST (env : Env) (reg : Registry) (contentLength : Nat)
    (parsed : Except Unit JValue) : Except PyErr (JValue × Nat) :=
  let parseRes := if contentLength = 0 then Except.ok (JValue.obj []) else parsed
  match parseRes with
  | .error _ => .ok (respond (errObj "Invalid JSON."))
  | .ok data =>
    match data with
    | .obj fs =>
      match resolveAction reg (lookupField fs "action") with
      | .builtin s => (execBuiltin env fs s).map respond
      | .plugin s h => .ok (respond (execPlugin data s h))
      | .unknown => .ok (respond (errObj "Unknown action."))
      | .unhashable => .error (.typeError "unhashable type")
    | _ => .error (.attrError "object has no attribute get")

/-! ### Concrete objects used to instantiate the theorems below -/

/-- An environment in which every external call succeeds. -/
def envQuiet : Env :=
  { mediaAvailable := true, pressKey := fun _ => none, showinfo := none,
    startfile := fun _ => none, lockScreen := none }

/-- An environment in which `messagebox.showinfo` raises. -/
def envBoom : Env :=
  { mediaAvailable := false, pressKey := fun _ => none,
    showinfo := some (.exc "boom"), startfile := fun _ => none,
    lockScreen := none }

/-- A zero-parameter handler that returns Python None. -/
def handlerNone : Handler :=
  { nparams := 0, run := fun _ => .ok JValue.null }

/-- A one-parameter handler that returns a plain string. -/
def handlerPlain : Handler :=
  { nparams := 1, run := fun _ => .ok (JValue.str "done") }

/-- A zero-parameter handler that raises. -/
def handlerBoom : Handler :=
  { nparams := 0, run := fun _ => .error (.exc "kaput") }

def unitA : PluginUnit :=
  { fname := "alpha.py", isPy := true,
    outcome := .methods [("fooBar", handlerNone)] }

def unitB : PluginUnit :=
  { fname := "beta.py", isPy := true,
    outcome := .methods [("bazQux", handlerPlain)] }

def unitBad : PluginUnit :=
  { fname := "bad.py", isPy := true, outcome := .loadFail }

/-! ### The two scans coincide with the single-pass forms -/

theorem length_dropWhile_le (p : Char → Bool) :
    ∀ l : List Char, (l.dropWhile p).length ≤ l.length := by
  intro l
  induction l with
  | nil => simp [List.dropWhile]
  | cons c t ih =>
    by_cases h : p c
    · simp only [List.dropWhile_cons_of_pos h, List.length_cons]
      exact Nat.le_succ_of_le ih
    · simp [List.dropWhile_cons_of_neg h]

theorem toNat_ofNat_small (n : Nat) (h1 : n < 55296) : (Char.ofNat n).toNat = n := by
  simp only [Char.ofNat, Nat.isValidChar, Char.toNat, Char.ofNatAux]
  rw [dif_pos (Or.inl h1)]
  simp [UInt32.toNat, UInt32.ofNat']

theorem upper_not_lowdig {c : Char} (h : isUpperAZ c = true) : lowdig c = false := by
  simp only [isUpperAZ, lowdig, isLowerAZ, isDigit09, Bool.and_eq_true,
    Bool.or_eq_false_iff, Bool.and_eq_false_iff, decide_eq_true_eq,
    decide_eq_false_iff_not] at *
  omega

theorem upper_not_lower {c : Char} (h : isUpperAZ c = true) : isLowerAZ c = false := by
  have := upper_not_lowdig h
  simp only [lowdig, Bool.or_eq_false_iff] at this
  exact this.1

theorem headLower_dropWhile (l : List Char) :
    headLower (l.dropWhile isLowerAZ) = false := by
  have h := List.head?_dropWhile_not isLowerAZ l
  cases hd : l.dropWhile isLowerAZ with
  | nil => rfl
  | cons e r =>
    rw [hd] at h
    simpa [headLower] using h

theorem sub1Go_lower_run :
    ∀ (low : List Char) (rest2 : List Char) (p : Char),
      (∀ c ∈ low, isLowerAZ c = true) → headLower rest2 = false →
      sub1Go p true (low ++ rest2) = low ++ sub1Ctx rest2 := by
  intro low
  induction low with
  | nil =>
    intro rest2 p _ hr
    cases rest2 with
    | nil => rfl
    | cons e r =>
      have he : isLowerAZ e = false := by simpa [headLower] using hr
      simp [sub1Go, sub1Ctx, he]
  | cons l low2 ih =>
    intro rest2 p hl hr
    have hll : isLowerAZ l = true := hl l (by simp)
    show sub1Go p true (l :: (low2 ++ rest2)) = l :: (low2 ++ sub1Ctx rest2)
    rw [sub1Go, if_neg (by simp)]
    rw [show (true && isLowerAZ l) = true by simp [hll]]
    rw [ih rest2 l (fun c hc => hl c (by simp [hc])) hr]

theorem sub1F_eq_ctx :
    ∀ (fuel : Nat) (xs : List Char), xs.length ≤ fuel → sub1F fuel xs = sub1Ctx xs := by
  intro fuel
  induction fuel with
  | zero =>
    intro xs h
    have : xs = [] := List.length_eq_zero.mp (Nat.le_zero.mp h)
    subst this
    rfl
  | succ fuel ih =>
    intro xs h
    match xs with
    | [] => rfl
    | [c] => rfl
    | c :: d :: rest =>
      simp only [List.length_cons] at h
      by_cases hc : ((c != '\n') && isUpperAZ d && headLower rest) = true
      · have hsplit := List.takeWhile_append_dropWhile (p := isLowerAZ) (l := rest)
        have hlow : ∀ e ∈ rest.takeWhile isLowerAZ, isLowerAZ e = true :=
          fun e he => List.mem_takeWhile_imp he
        have hdrop : headLower (rest.dropWhile isLowerAZ) = false :=
          headLower_dropWhile rest
        have hlen : (rest.dropWhile isLowerAZ).length ≤ fuel := by
          have := length_dropWhile_le isLowerAZ rest
          omega
        have run := sub1Go_lower_run (rest.takeWhile isLowerAZ)
          (rest.dropWhile isLowerAZ) d hlow hdrop
        rw [hsplit] at run
        simp only [sub1F, if_pos hc, sub1Ctx, sub1Go, Bool.not_false, Bool.true_and,
          if_pos hc]
        rw [ih _ hlen, run]
      · simp only [sub1F, if_neg hc, sub1Ctx, sub1Go, Bool.not_false, Bool.true_and,
          if_neg hc, Bool.false_and]
        have hl2 : (d :: rest).length ≤ fuel := by
          simp only [List.length_cons]
          omega
        rw [ih _ hl2]
        rfl

theorem sub1_eq_ctx (xs : List Char) : sub1 xs = sub1Ctx xs :=
  sub1F_eq_ctx xs.length xs (Nat.le_refl _)

theorem sub2Go_of_not_lowdig {p : Char} (h : lowdig p = false) :
    ∀ xs, sub2Go p xs = sub2Ctx xs := by
  intro xs
  cases xs with
  | nil => rfl
  | cons c rest => simp [sub2Go, sub2Ctx, h]

theorem sub2_eq_ctx (xs : List Char) : sub2 xs = sub2Ctx xs := by
  match xs with
  | [] => rfl
  | [c] => rfl
  | c :: d :: rest =>
    by_cases h : (lowdig c && isUpperAZ d) = true
    · have hu : isUpperAZ d = true := by
        have h2 := h
        simp only [Bool.and_eq_true] at h2
        exact h2.2
      have h1 := sub2_eq_ctx rest
      simp [sub2, sub2Ctx, sub2Go, h, h1,
        sub2Go_of_not_lowdig (upper_not_lowdig hu)]
    · have h1 := sub2_eq_ctx (d :: rest)
      simp only [sub2, if_neg h, sub2Ctx, sub2Go, h1]
termination_by xs.length

theorem sub2Go_sub1Go :
    ∀ (xs : List Char) (prev : Char) (inM : Bool),
      (inM = true → lowdig prev = true ∨ headLower xs = true) →
      sub2Go prev (sub1Go prev inM xs) = amendGo prev xs := by
  intro xs
  induction xs with
  | nil => intro prev inM _; rfl
  | cons c rest ih =>
    intro prev inM hinv
    have hU : isUpperAZ '_' = false := by decide
    have hL : lowdig '_' = false := by decide
    by_cases hm : (!inM && (prev != '\n') && isUpperAZ c && headLower rest) = true
    · have hm2 := hm
      simp only [Bool.and_eq_true] at hm2
      obtain ⟨⟨⟨hnm, hp⟩, hu⟩, hh⟩ := hm2
      rw [sub1Go, if_pos hm]
      rw [sub2Go, if_neg (by simp [hU])]
      rw [sub2Go, if_neg (by simp [hL])]
      rw [ih c true (fun _ => Or.inr hh)]
      rw [amendGo, if_pos (by simp [hu, hp, hh])]
    · rw [sub1Go, if_neg hm]
      rw [sub2Go]
      rw [ih c (inM && isLowerAZ c) ?inv]
      case inv =>
        intro h
        simp only [Bool.and_eq_true] at h
        exact Or.inl (by simp [lowdig, h.2])
      rw [amendGo]
      have hcond : (lowdig prev && isUpperAZ c)
          = (isUpperAZ c && (lowdig prev || ((prev != '\n') && headLower rest))) := by
        by_cases hu : isUpperAZ c = true
        · simp only [hu, Bool.and_true, Bool.true_and]
          by_cases hld : lowdig prev = true
          · simp [hld]
          · have hld2 : lowdig prev = false := Bool.eq_false_iff.mpr hld
            simp only [hld2, Bool.false_or]
            have hhead : ¬(((prev != '\n') = true) ∧ headLower rest = true) := by
              rintro ⟨hp, hh⟩
              have hin : inM = true := by
                by_contra hin
                have hin2 : inM = false := Bool.eq_false_iff.mpr hin
                exact hm (by simp [hin2, hp, hu, hh])
              rcases hinv hin with h1 | h1
              · rw [hld2] at h1
                exact Bool.false_ne_true h1
              · have h2 := upper_not_lower hu
                simp only [headLower, h2] at h1
                exact Bool.false_ne_true h1
            cases hp : (prev != '\n') with
            | false => rfl
            | true =>
              cases hh : headLower rest with
              | false => rfl
              | true => exact absurd ⟨hp, hh⟩ hhead
        · have hu2 : isUpperAZ c = false := Bool.eq_false_iff.mpr hu
          simp [hu2]
      rw [hcond]

theorem sub2_sub1_eq_amendSep (xs : List Char) : sub2 (sub1 xs) = amendSep xs := by
  rw [sub1_eq_ctx]
  cases xs with
  | nil => rfl
  | cons c rest =>
    show sub2 (c :: sub1Go c false rest) = c :: amendGo c rest
    rw [sub2_eq_ctx]
    show c :: sub2Go c (sub1Go c false rest) = _
    rw [sub2Go_sub1Go rest c false (fun h => absurd h Bool.false_ne_true)]

/-! ### Idempotence of the normalizer -/

theorem toLowerPy_not_upper (c : Char) : isUpperAZ (toLowerPy c) = false := by
  unfold toLowerPy
  by_cases h : isUpperAZ c = true
  · rw [if_pos h]
    simp only [isUpperAZ, Bool.and_eq_true, decide_eq_true_eq] at h
    have hn : c.toNat + 32 < 55296 := by omega
    simp only [isUpperAZ, toNat_ofNat_small _ hn, Bool.and_eq_false_iff,
      decide_eq_false_iff_not]
    right
    omega
  · rw [if_neg h]
    exact Bool.eq_false_iff.mpr h

theorem replDash_ne_dash (c : Char) : replDash c ≠ '-' := by
  unfold replDash
  by_cases h : c = '-'
  · rw [if_pos h]
    decide
  · rw [if_neg h]
    exact h

theorem toLowerPy_ne_dash (c : Char) (hc : c ≠ '-') : toLowerPy c ≠ '-' := by
  unfold toLowerPy
  by_cases h : isUpperAZ c = true
  · rw [if_pos h]
    intro heq
    have ht := congrArg Char.toNat heq
    simp only [isUpperAZ, Bool.and_eq_true, decide_eq_true_eq] at h
    rw [toNat_ofNat_small _ (by omega)] at ht
    have : ('-').toNat = 45 := by decide
    omega
  · rw [if_neg h]
    exact hc

theorem toLowerPy_of_not_upper {c : Char} (h : isUpperAZ c = false) :
    toLowerPy c = c := by
  unfold toLowerPy
  rw [if_neg (by simp [h])]

theorem replDash_of_ne_dash {c : Char} (h : c ≠ '-') : replDash c = c := by
  unfold replDash
  rw [if_neg h]

theorem map_eq_self_of_fixed {f : Char → Char} :
    ∀ xs : List Char, (∀ c ∈ xs, f c = c) → xs.map f = xs := by
  intro xs
  induction xs with
  | nil => intro _; rfl
  | cons c t ih =>
    intro h
    simp only [List.map_cons, h c (by simp), ih (fun d hd => h d (by simp [hd]))]

theorem sub1Go_no_upper :
    ∀ (xs : List Char) (prev : Char) (inM : Bool),
      (∀ c ∈ xs, isUpperAZ c = false) → sub1Go prev inM xs = xs := by
  intro xs
  induction xs with
  | nil => intro prev inM _; rfl
  | cons c rest ih =>
    intro prev inM h
    have hc : isUpperAZ c = false := h c (by simp)
    rw [sub1Go, if_neg (by simp [hc])]
    rw [ih c _ (fun d hd => h d (by simp [hd]))]

theorem sub1_no_upper {xs : List Char} (h : ∀ c ∈ xs, isUpperAZ c = false) :
    sub1 xs = xs := by
  rw [sub1_eq_ctx]
  cases xs with
  | nil => rfl
  | cons c rest =>
    show c :: sub1Go c false rest = c :: rest
    rw [sub1Go_no_upper rest c false (fun d hd => h d (by simp [hd]))]

theorem sub2Go_no_upper :
    ∀ (xs : List Char) (prev : Char),
      (∀ c ∈ xs, isUpperAZ c = false) → sub2Go prev xs = xs := by
  intro xs
  induction xs with
  | nil => intro _ _; rfl
  | cons c rest ih =>
    intro prev h
    have hc : isUpperAZ c = false := h c (by simp)
    rw [sub2Go, if_neg (by simp [hc])]
    rw [ih c (fun d hd => h d (by simp [hd]))]

theorem sub2_no_upper {xs : List Char} (h : ∀ c ∈ xs, isUpperAZ c = false) :
    sub2 xs = xs := by
  rw [sub2_eq_ctx]
  cases xs with
  | nil => rfl
  | cons c rest =>
    show c :: sub2Go c rest = c :: rest
    rw [sub2Go_no_upper rest c (fun d hd => h d (by simp [hd]))]

theorem camel_to_snake_chars (name : String) :
    ∀ c ∈ (camel_to_snake name).data, isUpperAZ c = false ∧ c ≠ '-' := by
  intro c hc
  simp only [camel_to_snake, List.map_map] at hc
  rcases List.mem_map.mp hc with ⟨b, _, hb⟩
  have h1 : isUpperAZ c = false := by
    rw [← hb]
    exact toLowerPy_not_upper _
  have h2 : c ≠ '-' := by
    rw [← hb]
    exact toLowerPy_ne_dash _ (replDash_ne_dash b)
  exact ⟨h1, h2⟩

/-! ## Claim theorems for the name normalizer -/

/-- C6: the name normalizer `_camel_to_snake` is idempotent: applying it to
its own output returns that output unchanged, for every input string.  It is
pure and deterministic by construction: it is a function of its argument
alone, with no state. -/
theorem camel_to_snake_idempotent (name : String) :
    camel_to_snake (camel_to_snake name) = camel_to_snake name := by
  have hch := camel_to_snake_chars name
  have hup : ∀ c ∈ (camel_to_snake name).data, isUpperAZ c = false :=
    fun c hc => (hch c hc).1
  have hdash : ∀ c ∈ (camel_to_snake name).data, c ≠ '-' :=
    fun c hc => (hch c hc).2
  conv_lhs => rw [camel_to_snake]
  rw [sub1_no_upper hup, sub2_no_upper hup]
  rw [map_eq_self_of_fixed _ (fun c hc => replDash_of_ne_dash (hdash c hc))]
  rw [map_eq_self_of_fixed _ (fun c hc => toLowerPy_of_not_upper (hup c hc))]

/-- C7 counterexample: on the input "a_Bc" the code inserts a separator
before the capitalized run "Bc" even though its preceding character is an
underscore — neither a lowercase letter or digit (rule a) nor the tail of a
capitalized run (rule b) — producing "a__bc" with a doubled separator, while
the separator-placement rules as the claim states them produce "a_bc". -/
theorem camel_to_snake_spec_counterexample :
    camel_to_snake "a_Bc" = "a__bc" ∧ spec_normalizer "a_Bc" = "a_bc" ∧
      camel_to_snake "a_Bc" ≠ spec_normalizer "a_Bc" := by
  refine ⟨rfl, rfl, ?_⟩
  decide

/-- C7 (amended): the normalizer produces the lowercase form in which a
single separator is inserted (a) before an uppercase letter that follows a
lowercase letter or digit, and (b) before a capitalized run — an uppercase
letter followed by a lowercase letter — that follows ANY character other
than a newline (not only another capitalized run's tail), and every hyphen
in the input is mapped to the separator. -/
theorem camel_to_snake_eq_spec_amended (name : String) :
    camel_to_snake name = spec_normalizer_amended name := by
  rw [camel_to_snake, spec_normalizer_amended, sub2_sub1_eq_amendSep]

/-! ## Registry lemmas -/

theorem lookupReg_setdefault (reg : Registry) (a : String) (h : Handler) (k : String) :
    lookupReg (setdefault reg a h) k
      = match lookupReg reg k with
        | some v => some v
        | none => if a = k then some h else none := by
  unfold setdefault
  by_cases hs : (lookupReg reg a).isSome
  · rw [if_pos hs]
    cases hk : lookupReg reg k with
    | some v => rfl
    | none =>
      by_cases hak : a = k
      · rw [hak] at hs
        rw [hk] at hs
        simp at hs
      · show (none : Option Handler) = if a = k then some h else none
        rw [if_neg hak]
  · rw [if_neg hs]
    show lookupReg (reg ++ [(a, h)]) k = _
    unfold lookupReg
    rw [List.find?_append]
    cases hk : List.find? (fun p => p.1 == k) reg with
    | some v => rfl
    | none =>
      by_cases hak : a = k
      · subst hak
        simp [Option.orElse, List.find?_cons]
      · simp [Option.orElse, List.find?_cons, hak]

theorem lookupReg_foldl_setdefault :
    ∀ (ps : List (String × Handler)) (reg : Registry) (k : String),
      lookupReg (ps.foldl (fun r p => setdefault r p.1 p.2) reg) k
        = match lookupReg reg k with
          | some v => some v
          | none => (ps.find? (fun p => p.1 == k)).map (fun p => p.2) := by
  intro ps
  induction ps with
  | nil =>
    intro reg k
    rw [List.foldl_nil]
    cases lookupReg reg k with
    | some v => rfl
    | none => rfl
  | cons p ps ih =>
    intro reg k
    rw [List.foldl_cons, ih, lookupReg_setdefault]
    cases hk : lookupReg reg k with
    | some v => rfl
    | none =>
      by_cases hak : p.1 = k
      · rw [if_pos hak]
        rw [List.find?_cons_of_pos _ (by simpa using hak)]
        rfl
      · rw [if_neg hak]
        rw [List.find?_cons_of_neg _ (by simpa using hak)]

theorem foldl_methods_eq (ms : List (String × Handler)) :
    ∀ reg : Registry,
      ms.foldl
          (fun r m =>
            if m.1.startsWith "_" || m.1 == "metadata" then r
            else setdefault r (camel_to_snake m.1) m.2)
          reg
        = ((ms.filter (fun m => !(m.1.startsWith "_" || m.1 == "metadata"))).map
              (fun m => (camel_to_snake m.1, m.2))).foldl
            (fun r p => setdefault r p.1 p.2) reg := by
  induction ms with
  | nil => intro reg; rfl
  | cons m ms ihm =>
    intro reg
    by_cases hskip : (m.1.startsWith "_" || m.1 == "metadata") = true
    · rw [List.foldl_cons, if_pos hskip, List.filter_cons,
        if_neg (by simp [hskip])]
      exact ihm reg
    · have hskip2 : (!(m.1.startsWith "_" || m.1 == "metadata")) = true := by
        rw [Bool.eq_false_iff.mpr hskip]
        rfl
      rw [List.foldl_cons, if_neg hskip, List.filter_cons, if_pos hskip2,
        List.map_cons, List.foldl_cons]
      exact ihm _

theorem registerUnit_eq_foldl (reg : Registry) (u : PluginUnit) :
    registerUnit reg u
      = (unitSubmissions u).foldl (fun r p => setdefault r p.1 p.2) reg := by
  unfold registerUnit unitSubmissions
  by_cases hc : (!u.isPy || u.fname.startsWith "_") = true
  · rw [if_pos hc, if_pos hc]
    rfl
  · rw [if_neg hc, if_neg hc]
    cases u.outcome with
    | loadFail => rfl
    | noPluginClass => rfl
    | instFail => rfl
    | methods ms => exact foldl_methods_eq ms reg

theorem load_eq_submissions :
    ∀ (units : List PluginUnit) (reg : Registry),
      units.foldl registerUnit reg
        = (submissions units).foldl (fun r p => setdefault r p.1 p.2) reg := by
  intro units
  induction units with
  | nil => intro reg; rfl
  | cons u us ih =>
    intro reg
    rw [List.foldl_cons, ih, registerUnit_eq_foldl]
    rw [show submissions (u :: us) = unitSubmissions u ++ submissions us from rfl]
    rw [List.foldl_append]

theorem regKeys_nodup_setdefault (reg : Registry) (a : String) (h : Handler)
    (hd : (reg.map (fun p => p.1)).Nodup) :
    ((setdefault reg a h).map (fun p => p.1)).Nodup := by
  unfold setdefault
  by_cases hs : (lookupReg reg a).isSome
  · rw [if_pos hs]
    exact hd
  · rw [if_neg hs]
    rw [List.map_append]
    simp only [List.map_cons, List.map_nil]
    rw [List.nodup_append]
    refine ⟨hd, List.nodup_singleton a, ?_⟩
    intro x hx
    simp only [List.mem_singleton]
    intro hxa
    subst hxa
    rcases List.mem_map.mp hx with ⟨p, hp, hpa⟩
    have hfind : List.find? (fun q => q.1 == x) reg = none := by
      cases hfind : List.find? (fun q => q.1 == x) reg with
      | none => rfl
      | some v =>
        exfalso
        apply hs
        unfold lookupReg
        rw [hfind]
        rfl
    have := List.find?_eq_none.mp hfind p hp
    simp [hpa] at this

theorem regKeys_nodup_foldl :
    ∀ (ps : List (String × Handler)) (reg : Registry),
      (reg.map (fun p => p.1)).Nodup →
      ((ps.foldl (fun r p => setdefault r p.1 p.2) reg).map (fun p => p.1)).Nodup := by
  intro ps
  induction ps with
  | nil => intro reg hd; exact hd
  | cons p ps ih =>
    intro reg hd
    rw [List.foldl_cons]
    exact ih _ (regKeys_nodup_setdefault reg p.1 p.2 hd)

/-! ## Claim theorems for the registry and loader -/

/-- C2: registration into `PLUGIN_ACTIONS` is first-write-wins.  For every
identifier, the registry built by `load_plugins` binds it to the handler of
the FIRST registration attempt (in enumeration order over units and, within
a unit, over its methods) whose normalized name equals that identifier —
so when two operations collide on one identifier, the one encountered first
wins; the registry's keys are pairwise distinct, so exactly one entry
exists per identifier; and `setdefault` leaves an occupied identifier's
handler untouched, so a later registration attempt never replaces it. -/
theorem registry_first_write_wins (units : List PluginUnit) (k : String) :
    (lookupReg (load_plugins units) k
        = ((submissions units).find? (fun p => p.1 == k)).map (fun p => p.2))
      ∧ ((load_plugins units).map (fun p => p.1)).Nodup
      ∧ (∀ (reg : Registry) (h : Handler),
          (lookupReg reg k).isSome → setdefault reg k h = reg) := by
  refine ⟨?_, ?_, ?_⟩
  · rw [load_plugins, load_eq_submissions, lookupReg_foldl_setdefault]
    rfl
  · rw [load_plugins, load_eq_submissions]
    exact regKeys_nodup_foldl _ _ List.nodup_nil
  · intro reg h hocc
    unfold setdefault
    rw [if_pos hocc]

/-- C9: plugin load failures are isolated.  Removing a unit whose load
raised (`loadFail`) or whose `WebDeckPlugin()` instantiation raised
(`instFail`) from the enumeration changes nothing: the registry produced
with the failing unit present equals the registry produced from the
remaining units alone, so every other unit's operations are still
registered and loading continues. -/
theorem plugin_load_failure_isolated (pre post : List PluginUnit)
    (u : PluginUnit)
    (hu : u.outcome = UnitOutcome.loadFail ∨ u.outcome = UnitOutcome.instFail) :
    load_plugins (pre ++ u :: post) = load_plugins (pre ++ post) := by
  have hreg : ∀ reg, registerUnit reg u = reg := by
    intro reg
    unfold registerUnit
    by_cases hc : (!u.isPy || u.fname.startsWith "_") = true
    · rw [if_pos hc]
    · rw [if_neg hc]
      rcases hu with h | h <;> rw [h]
  rw [load_plugins, load_plugins, List.foldl_append, List.foldl_append,
    List.foldl_cons, hreg]

theorem plugin_load_failure_isolated_witness :
    (unitBad.outcome = UnitOutcome.loadFail ∨
        unitBad.outcome = UnitOutcome.instFail)
      ∧ load_plugins [unitA, unitBad, unitB] = load_plugins [unitA, unitB] :=
  ⟨Or.inl rfl,
    plugin_load_failure_isolated [unitA] [unitB] unitBad (Or.inl rfl)⟩

/-! ## Claim theorems for the dispatcher -/

/-- C1 counterexample: the claim is refuted for built-in handlers.  A
request for the built-in action "example" in an environment where
`messagebox.showinfo` raises makes `do_POST` end in an uncaught exception
(the call has no enclosing try/except), instead of an error-status
ActionResult: the exception propagates out of the dispatch. -/
theorem builtin_exception_propagates :
    do_POST envBoom [] 1 (.ok (.obj [("action", JValue.str "example")]))
      = .error (.exc "boom") := rfl

/-- C1 (amended): restricted to PLUGIN handlers the claim holds.  For every
request that resolves to a registered plugin handler whose invocation
raises an exception `e`, the dispatcher catches it and responds with the
ActionResult `status = "error", message = "Plugin error: <e>"` and HTTP
status 400; the exception never propagates out of `do_POST`.  For built-in
handlers the guarantee fails (see the counterexample). -/
theorem plugin_exception_caught (env : Env) (reg : Registry) (n : Nat)
    (fs : List (String × JValue)) (s : String) (h : Handler) (e : PyErr)
    (hn : n ≠ 0) (ha : lookupField fs "action" = some (.str s))
    (hb : s ∉ builtinNames) (hr : lookupReg reg s = some h)
    (he : callPlugin h (.obj fs) = .error e) :
    do_POST env reg n (.ok (.obj fs))
      = .ok (errObj ("Plugin error: " ++ e.msg), 400) := by
  simp only [do_POST, if_neg hn, ha, resolveAction, if_neg hb, hr, execPlugin,
    he]
  rfl

theorem plugin_exception_caught_witness :
    (1 ≠ 0) ∧ ("custom_act" ∉ builtinNames)
      ∧ do_POST envQuiet [("custom_act", handlerBoom)] 1
            (.ok (.obj [("action", JValue.str "custom_act")]))
          = .ok (errObj ("Plugin error: " ++ (PyErr.exc "kaput").msg), 400) :=
  ⟨by decide, by decide,
    plugin_exception_caught envQuiet [("custom_act", handlerBoom)] 1
      [("action", JValue.str "custom_act")] "custom_act" handlerBoom
      (PyErr.exc "kaput") (by decide) rfl (by decide) rfl rfl⟩

/-- C3: built-in actions take precedence over plugins at dispatch.  For
every action identifier among the eight built-in identifiers, the resolver
yields the built-in branch, and the dispatch outcome is the same for every
plugin registry — in particular a plugin registered under the same
normalized identifier is never invoked and cannot influence the
response. -/
theorem builtin_precedence (env : Env) (reg reg2 : Registry) (n : Nat)
    (fs : List (String × JValue)) (s : String)
    (hn : n ≠ 0) (ha : lookupField fs "action" = some (.str s))
    (hs : s ∈ builtinNames) :
    resolveAction reg (some (.str s)) = .builtin s
      ∧ do_POST env reg n (.ok (.obj fs)) = do_POST env reg2 n (.ok (.obj fs)) := by
  constructor
  · simp only [resolveAction, if_pos hs]
  · simp only [do_POST, if_neg hn, ha, resolveAction, if_pos hs]

theorem builtin_precedence_witness :
    ("toggle_mute" ∈ builtinNames)
      ∧ (resolveAction [("toggle_mute", handlerPlain)]
            (some (JValue.str "toggle_mute")) = .builtin "toggle_mute"
        ∧ do_POST envQuiet [("toggle_mute", handlerPlain)] 1
              (.ok (.obj [("action", JValue.str "toggle_mute")]))
            = do_POST envQuiet [] 1
              (.ok (.obj [("action", JValue.str "toggle_mute")]))) :=
  ⟨by decide,
    builtin_precedence envQuiet [("toggle_mute", handlerPlain)] [] 1
      [("action", JValue.str "toggle_mute")] "toggle_mute"
      (by decide) rfl (by decide)⟩

/-- C4: for every action identifier that is neither a built-in identifier
nor a key of the plugin registry, dispatching a well-formed JSON-object
request carrying it yields the response dict with status "error" and
message "Unknown action." under HTTP status 400, and never an uncaught
exception. -/
theorem unknown_action_dispatch (env : Env) (reg : Registry) (n : Nat)
    (fs : List (String × JValue)) (s : String)
    (hn : n ≠ 0) (ha : lookupField fs "action" = some (.str s))
    (hb : s ∉ builtinNames) (hr : lookupReg reg s = none) :
    do_POST env reg n (.ok (.obj fs)) = .ok (errObj "Unknown action.", 400) := by
  simp only [do_POST, if_neg hn, ha, resolveAction, if_neg hb, hr]
  rfl

theorem unknown_action_dispatch_witness :
    ("mystery" ∉ builtinNames)
      ∧ do_POST envQuiet [] 3 (.ok (.obj [("action", JValue.str "mystery")]))
          = .ok (errObj "Unknown action.", 400) :=
  ⟨by decide,
    unknown_action_dispatch envQuiet [] 3
      [("action", JValue.str "mystery")] "mystery"
      (by decide) rfl (by decide) rfl⟩

/-- C5: for every nonempty POST body on which `json.loads` fails, the
dispatcher short-circuits at the parse step and responds with the dict
with status "error" and message "Invalid JSON." under HTTP status 400;
no exception propagates further. -/
theorem invalid_json_dispatch (env : Env) (reg : Registry) (n : Nat)
    (hn : n ≠ 0) :
    do_POST env reg n (.error ()) = .ok (errObj "Invalid JSON.", 400) := by
  simp only [do_POST, if_neg hn]
  rfl

theorem invalid_json_dispatch_witness :
    (5 ≠ 0) ∧ do_POST envQuiet [] 5 (Except.error ())
        = .ok (errObj "Invalid JSON.", 400) :=
  ⟨by decide, invalid_json_dispatch envQuiet [] 5 (by decide)⟩

/-- C8: for every plugin handler invocation that returns normally, the
dispatcher normalizes the returned value: a returned dict that carries a
"status" field is used as the response as-is; any other value is replaced
by the synthesized success dict, whose message is "Plugin '<action>'
executed." for the dispatched action identifier. -/
theorem plugin_result_normalization (env : Env) (reg : Registry) (n : Nat)
    (fs : List (String × JValue)) (s : String) (h : Handler) (r : JValue)
    (hn : n ≠ 0) (ha : lookupField fs "action" = some (.str s))
    (hb : s ∉ builtinNames) (hr : lookupReg reg s = some h)
    (hok : callPlugin h (.obj fs) = .ok r) :
    do_POST env reg n (.ok (.obj fs))
      = .ok (respond (if hasStatusField r then r
          else okObj ("Plugin '" ++ s ++ "' executed."))) := by
  simp only [do_POST, if_neg hn, ha, resolveAction, if_neg hb, hr, execPlugin,
    hok]

theorem plugin_result_normalization_witness :
    (1 ≠ 0) ∧ ("bar_baz" ∉ builtinNames)
      ∧ do_POST envQuiet [("bar_baz", handlerPlain)] 1
            (.ok (.obj [("action", JValue.str "bar_baz")]))
          = .ok (respond (if hasStatusField (JValue.str "done")
              then JValue.str "done"
              else okObj ("Plugin '" ++ "bar_baz" ++ "' executed."))) :=
  ⟨by decide, by decide,
    plugin_result_normalization envQuiet [("bar_baz", handlerPlain)] 1
      [("action", JValue.str "bar_baz")] "bar_baz" handlerPlain
      (JValue.str "done") (by decide) rfl (by decide) rfl rfl⟩

/-- C10: a POST to the action endpoint whose Content-Length is absent or
zero substitutes the empty-dict body, so dispatch proceeds with no action
identifier and yields the "Unknown action." error dict with HTTP 400 —
not the "Invalid JSON." malformed-body result — whatever `json.loads`
would have said about the empty byte string. -/
theorem empty_body_unknown_action (env : Env) (reg : Registry)
    (parsed : Except Unit JValue) :
    do_POST env reg 0 parsed = .ok (errObj "Unknown action.", 400) := rfl
